import Mathlib

/-!
Shallow embedding of the AddaxAI-WebUI ML core:
the WebSocket progress hub (`backend/app/core/websocket_manager.py`),
the micromamba environment manager (`backend/app/ml/environment_manager.py`),
the HuggingFace repository downloader (`backend/app/ml/hf_downloader.py`),
and the MegaDetector CLI runner (`backend/app/ml/detection/megadetector_runner.py`).

Python dicts keyed by strings are embedded as association lists; Python
floats used for byte counts and speed samples are embedded as rationals;
fallible operations return `Except`.  Filesystem and network effects are
made explicit as state records threaded through the functions.
-/

/-! ## Association-list helpers (model of Python `dict[str, _]`) -/

/-- Lookup of the first binding for `k` (model of `d[k]` / `k in d`). -/
def alookup {α : Type} (m : List (String × α)) (k : String) : Option α :=
  match m.find? (fun p => p.1 == k) with
  | some p => some p.2
  | none => none

/-- Replace the binding for `k`, or append it (model of `d[k] = v`). -/
def aset {α : Type} (m : List (String × α)) (k : String) (v : α) : List (String × α) :=
  match m with
  | [] => [(k, v)]
  | p :: rest => if p.1 == k then (k, v) :: rest else p :: aset rest k v

/-- Remove every binding for `k` (model of `del d[k]`). -/
def adel {α : Type} (m : List (String × α)) (k : String) : List (String × α) :=
  m.filter (fun p => p.1 != k)

/-! ## WebSocket connection manager (`ConnectionManager`)

A WebSocket connection is identified by a natural number.  `send_json`
failures are modelled by a predicate `broken : Conn → Bool` passed to the
send operations: delivery to a broken connection raises, delivery to any
other connection appends the event to the returned delivery list. -/

abbrev Conn := Nat

/-- One event payload as built by `send_progress` / `send_complete` /
`send_error` (the Python dicts with keys `type`, `job_id`, ...). -/
structure WSEvent where
  type : String
  jobId : String
  message : Option String := none
  progress : Option Rat := none
  success : Option Bool := none
  errorMsg : Option String := none
  data : List (String × String) := []
deriving DecidableEq, Repr

/-- `ConnectionManager` state: `active_connections : dict[str, list[WebSocket]]`. -/
structure WSManager where
  conns : List (String × List Conn)
deriving DecidableEq, Repr

/-- `ConnectionManager.connect`: create the job list if absent, append. -/
def wsConnect (m : WSManager) (c : Conn) (jobId : String) : WSManager :=
  let l := (alookup m.conns jobId).getD []
  { conns := aset m.conns jobId (l ++ [c]) }

/-- Message of the `ValueError` raised by `list.remove` on a missing element. -/
def valueErrorMsg : String := "ValueError: list.remove(x): x not in list"

/-- `ConnectionManager.disconnect`: silent no-op when the job id has no
channel; `list.remove` (which raises `ValueError` when the connection is not
registered) followed by deletion of an emptied job list otherwise. -/
def wsDisconnect (m : WSManager) (c : Conn) (jobId : String) : Except String WSManager :=
  match alookup m.conns jobId with
  | none => .ok m
  | some l =>
    if c ∈ l then
      let l2 := l.erase c
      if l2.isEmpty then .ok { conns := adel m.conns jobId }
      else .ok { conns := aset m.conns jobId l2 }
    else .error valueErrorMsg

/-- `ConnectionManager.send_progress`: no-op for an unknown job id; otherwise
deliver the progress event to each connection in order (failed sends are
collected as `disconnected`), then remove each disconnected connection that
is still present.  The job key is kept even if the list becomes empty. -/
def wsSendProgress (broken : Conn → Bool) (m : WSManager) (jobId message : String)
    (progress : Rat) (data : List (String × String)) :
    List (Conn × WSEvent) × WSManager :=
  match alookup m.conns jobId with
  | none => ([], m)
  | some l =>
    let ev : WSEvent :=
      { type := "progress", jobId := jobId, message := some message,
        progress := some progress, data := data }
    let delivered := (l.filter (fun c => !broken c)).map (fun c => (c, ev))
    let disconnected := l.filter (fun c => broken c)
    let l2 := disconnected.foldl (fun acc c => if c ∈ acc then acc.erase c else acc) l
    (delivered, if disconnected.isEmpty then m else { conns := aset m.conns jobId l2 })

/-- `ConnectionManager.send_complete`: no-op for an unknown job id; otherwise
deliver the completion event to each connection (failures only logged), then
delete the job id's channel entirely. -/
def wsSendComplete (broken : Conn → Bool) (m : WSManager) (jobId : String)
    (success : Bool) (message : String) (data : List (String × String)) :
    List (Conn × WSEvent) × WSManager :=
  match alookup m.conns jobId with
  | none => ([], m)
  | some l =>
    let ev : WSEvent :=
      { type := "complete", jobId := jobId, success := some success,
        message := some message, data := data }
    ((l.filter (fun c => !broken c)).map (fun c => (c, ev)),
     { conns := adel m.conns jobId })

/-- `ConnectionManager.send_error`: no-op for an unknown job id; otherwise
deliver the error event to each connection (failures only logged).  The
subscriber list and the channel are left untouched. -/
def wsSendError (broken : Conn → Bool) (m : WSManager) (jobId error : String) :
    List (Conn × WSEvent) × WSManager :=
  match alookup m.conns jobId with
  | none => ([], m)
  | some l =>
    let ev : WSEvent := { type := "error", jobId := jobId, errorMsg := some error }
    ((l.filter (fun c => !broken c)).map (fun c => (c, ev)), m)

/-- `ConnectionManager.get_connection_count`: `len(d.get(job_id, []))`. -/
def wsConnectionCount (m : WSManager) (jobId : String) : Nat :=
  ((alookup m.conns jobId).getD []).length

/-! ## Micromamba environment manager (`EnvironmentManager`)

The on-disk state relevant to `get_or_create_env` is the environment
directory (present or absent; when present, the writable flag of each of its
entries, which is what `_safe_rmtree`'s permission handling depends on), the
interpreter binary inside it, and the `environment.yml` spec file for the
manifest's environment name.  The external `micromamba create` invocation is
an input: its outcome (exit code, captured last output line, partially
created directory) parameterises the run. -/

/-- Removal of one directory entry: `shutil.rmtree` can delete an entry iff
it is writable. -/
def rmEntry (writable : Bool) : Bool := writable

/-- One entry removal under `_safe_rmtree`'s `onerror` handler: when plain
removal fails and `os.access(path, os.W_OK)` is false, `chmod` the entry to
`S_IWUSR | S_IRUSR | S_IXUSR` and retry; otherwise re-raise. -/
def safeRmEntry (writable : Bool) : Bool :=
  if rmEntry writable then true
  else if !writable then rmEntry true
  else false

/-- `EnvironmentManager._safe_rmtree` over a directory: the entries whose
removal still fails remain. -/
def safeRmtree (entries : List Bool) : List Bool :=
  entries.filter (fun w => !safeRmEntry w)

/-- A directory after `_safe_rmtree`: gone when every entry was removed. -/
def rmtreeDir (entries : List Bool) : Option (List Bool) :=
  let rem := safeRmtree entries
  if rem.isEmpty then none else some rem

/-- On-disk state seen by `EnvironmentManager` for one environment name. -/
structure EnvFS where
  envDir : Option (List Bool)
  pythonExists : Bool
  yamlExists : Bool
deriving DecidableEq, Repr

/-- Outcome of one `micromamba create` child process: zero exit (with or
without an interpreter binary materialising), non-zero exit with the last
captured output line, or some other exception mid-build.  The failure cases
carry the partially created directory, if any. -/
inductive BuildOutcome where
  | exitZero (pythonInstalled : Bool)
  | exitNonZero (lastLine : String) (partialDir : Option (List Bool))
  | exn (msg : String) (partialDir : Option (List Bool))
deriving DecidableEq, Repr

/-- `EnvironmentManager._validate_env`: does the interpreter binary exist. -/
def validateEnv (s : EnvFS) : Bool := s.pythonExists

/-- Environment directory path: `envs_dir / ("env-" ++ manifest.env)`. -/
def envPath (env : String) : String := "~/AddaxAI/envs/env-" ++ env

/-- The `micromamba create` command line built by `_create_env`. -/
def buildCmd (env yamlPath : String) : String :=
  "~/AddaxAI/bin/micromamba create -f " ++ yamlPath ++ " -p " ++ envPath env ++ " -y --no-rc"

/-- The `RuntimeError` message for a non-zero `micromamba create` exit. -/
def micromambaFailMsg (cmd lastLine : String) : String :=
  "micromamba create failed:\nCommand: " ++ cmd ++ "\nLast output: " ++ lastLine

/-- The wrapping `RuntimeError` message raised by `_create_env`'s handler. -/
def createEnvWrapMsg (envName inner : String) : String :=
  "Failed to create environment " ++ envName ++ ": " ++ inner

/-- `get_env_yaml_path` result for the current platform. -/
def envYamlPath (env : String) : String :=
  "backend/app/ml/envs/" ++ env ++ "/linux/environment.yml"

/-- `FileNotFoundError` message of `get_env_yaml_path`. -/
def yamlNotFoundMsg (env : String) : String :=
  "Environment YAML not found: " ++ envYamlPath env

/-- Result of one `EnvironmentManager` call: the returned value or the
raised error, the filesystem afterwards, and how many times the
environment-build tool was invoked. -/
structure EnvOut where
  res : Except String String
  fs : EnvFS
  builds : Nat
deriving Repr

/-- `EnvironmentManager._create_env`: invoke `micromamba create`; a non-zero
exit raises a `RuntimeError` carrying the command and the last output line;
on any exception the partially built directory (if it exists) is removed
with `_safe_rmtree` and the error is re-raised wrapped. -/
def createEnv (env yamlPath : String) (s : EnvFS) (b : BuildOutcome) : EnvOut :=
  match b with
  | .exitZero py =>
    { res := .ok (envPath env),
      fs := { s with envDir := some [], pythonExists := py },
      builds := 1 }
  | .exitNonZero lastLine partialDir =>
    let inner := micromambaFailMsg (buildCmd env yamlPath) lastLine
    { res := .error (createEnvWrapMsg ("env-" ++ env) inner),
      fs := { s with envDir := partialDir.bind rmtreeDir, pythonExists := false },
      builds := 1 }
  | .exn msg partialDir =>
    { res := .error (createEnvWrapMsg ("env-" ++ env) msg),
      fs := { s with envDir := partialDir.bind rmtreeDir, pythonExists := false },
      builds := 1 }

/-- `EnvironmentManager.get_or_create_env`: fast path when the directory
exists and validates; otherwise resolve the YAML spec (fatal if missing),
remove any invalid leftover directory, and build. -/
def getOrCreateEnv (env : String) (s : EnvFS) (b : BuildOutcome) : EnvOut :=
  if s.envDir.isSome && validateEnv s then
    { res := .ok (envPath env), fs := s, builds := 0 }
  else if !s.yamlExists then
    { res := .error (yamlNotFoundMsg env), fs := s, builds := 0 }
  else
    let s1 : EnvFS :=
      match s.envDir with
      | some d => { s with envDir := rmtreeDir d, pythonExists := false }
      | none => s
    createEnv env (envYamlPath env) s1 b

/-! ## HuggingFace repository downloader (`HuggingFaceRepoDownloader`)

Wall-clock times, download speeds and byte counters are embedded as
rationals and naturals.  The network is an input: each scheduled file
carries the outcome of its HTTP transfer.  Two instrumentation fields
(`netBytes`, `netRequests`) record what actually crossed the network; they
mirror the calls to `session.get` and the chunks written in
`download_file`, not any specification text. -/

/-- Adaptive-scaling state of the downloader (`max_workers` is the current
pool size; `max_workers_limit` the hard ceiling). -/
structure DLScale where
  maxWorkers : Nat
  minWorkers : Nat
  maxWorkersLimit : Nat
  speedSamples : List Rat
  lastAdjustmentTime : Rat
  adjustmentInterval : Rat
deriving DecidableEq, Repr

/-- `HuggingFaceRepoDownloader.adjust_workers`: return unchanged before the
adjustment interval has elapsed or with fewer than 3 samples; otherwise
compare the mean of the last 3 samples against the mean of the whole window
and shrink (strictly below 70% of the window mean) or grow (strictly above
120%) the pool by one, clamped to `[min_workers, max_workers_limit]`. -/
def adjustWorkers (s : DLScale) (now : Rat) : DLScale :=
  if now - s.lastAdjustmentTime < s.adjustmentInterval then s
  else if s.speedSamples.length < 3 then s
  else
    let avgSpeed := s.speedSamples.sum / (s.speedSamples.length : Rat)
    let recentSpeed := (s.speedSamples.drop (s.speedSamples.length - 3)).sum / 3
    if recentSpeed < avgSpeed * (7 / 10) ∧ s.minWorkers < s.maxWorkers then
      { s with maxWorkers := max s.minWorkers (s.maxWorkers - 1),
               lastAdjustmentTime := now }
    else if avgSpeed * (12 / 10) < recentSpeed ∧ s.maxWorkers < s.maxWorkersLimit then
      { s with maxWorkers := min s.maxWorkersLimit (s.maxWorkers + 1),
               lastAdjustmentTime := now }
    else { s with lastAdjustmentTime := now }

/-- A scaling state whose recent mean (7) sits exactly 30% below its window
mean (10), with the adjustment interval elapsed at time 10. -/
def boundaryScale : DLScale :=
  { maxWorkers := 4, minWorkers := 1, maxWorkersLimit := 16,
    speedSamples := [13, 13, 13, 7, 7, 7], lastAdjustmentTime := 0,
    adjustmentInterval := 10 }

/-- A scaling state whose recent mean (1) is far below its window mean
(11/2), with the adjustment interval elapsed at time 10. -/
def degradedScale : DLScale :=
  { maxWorkers := 4, minWorkers := 1, maxWorkersLimit := 16,
    speedSamples := [10, 10, 10, 1, 1, 1], lastAdjustmentTime := 0,
    adjustmentInterval := 10 }

/-- One file of the repository manifest, as produced by `get_repo_info`. -/
structure FileInfo where
  path : String
  size : Nat
deriving DecidableEq, Repr

/-- Outcome of the HTTP transfer for one file: the full stream arrives, or
the request fails after `partialBytes` bytes were received and counted. -/
inductive NetOutcome where
  | ok
  | fail (partialBytes : Nat)
deriving DecidableEq, Repr

/-- Mutable state of one `download_repo` invocation: the destination
directory contents (path to size on disk), `self.downloaded_bytes`, the
count of recorded speed samples, and the instrumentation counters for
actual network traffic. -/
structure DLRun where
  disk : List (String × Nat)
  downloadedBytes : Nat
  sampleCount : Nat
  netBytes : Nat
  netRequests : List String
deriving DecidableEq, Repr

/-- `HuggingFaceRepoDownloader.download_file`: skip (crediting the file's
size via `update_progress`) when a local file of identical size exists;
otherwise issue the HTTP request, stream chunks into the destination file
while counting them, and record a speed sample; on failure delete whatever
file now sits at the destination path and return `False`. -/
def downloadFile (st : DLRun) (f : FileInfo) (net : NetOutcome) : Bool × DLRun :=
  let attempt : Bool × DLRun :=
    match net with
    | .ok =>
      (true,
       { st with disk := aset st.disk f.path f.size,
                 downloadedBytes := st.downloadedBytes + f.size,
                 netBytes := st.netBytes + f.size,
                 netRequests := st.netRequests ++ [f.path],
                 sampleCount := st.sampleCount + (if 0 < f.size then 1 else 0) })
    | .fail partialBytes =>
      (false,
       { st with disk := adel st.disk f.path,
                 downloadedBytes := st.downloadedBytes + partialBytes,
                 netBytes := st.netBytes + partialBytes,
                 netRequests := st.netRequests ++ [f.path] })
  match alookup st.disk f.path with
  | some existingSize =>
    if existingSize = f.size then
      (true, { st with downloadedBytes := st.downloadedBytes + f.size })
    else attempt
  | none => attempt

/-- Aggregate result of `download_repo`. -/
structure RepoOutcome where
  success : Bool
  successCount : Nat
  failedCount : Nat
  final : DLRun
deriving DecidableEq, Repr

/-- One step of the completion loop in `download_repo`: account the file's
result into the success/failure tallies. -/
def repoStep (acc : Nat × Nat × DLRun) (fn : FileInfo × NetOutcome) : Nat × Nat × DLRun :=
  let r := downloadFile acc.2.2 fn.1 fn.2
  if r.1 then (acc.1 + 1, acc.2.1, r.2) else (acc.1, acc.2.1 + 1, r.2)

/-- `HuggingFaceRepoDownloader.download_repo` over an already fetched file
manifest: reset `downloaded_bytes`, download every file (each file's
failure only increments `failed_downloads`), and report success iff no file
failed. -/
def downloadRepo (files : List (FileInfo × NetOutcome)) (disk0 : List (String × Nat)) :
    RepoOutcome :=
  let st0 : DLRun :=
    { disk := disk0, downloadedBytes := 0, sampleCount := 0,
      netBytes := 0, netRequests := [] }
  let r := files.foldl repoStep (0, 0, st0)
  { success := r.2.1 == 0, successCount := r.1, failedCount := r.2.1, final := r.2.2 }

/-- Total repository size as summed by `get_repo_info`. -/
def totalSize (files : List (FileInfo × NetOutcome)) : Nat :=
  (files.map (fun fn => fn.1.size)).sum

/-! ## MegaDetector CLI runner (`MegaDetectorRunner`)

The temp-file lifecycle of `run_detection` / `_run_megadetector_cli` is
embedded as two on-disk flags together with a child-process spawn counter.
The child process itself is an input: its outcome (structured results on
success, exit code with captured streams on failure, or any other exception
while running or parsing) parameterises the run. -/

/-- One detection of the MegaDetector output JSON. -/
structure Detection where
  category : String
  conf : Rat
  bbox : Rat × Rat × Rat × Rat
deriving DecidableEq, Repr

/-- One per-image entry of the MegaDetector output JSON. -/
structure ImageResult where
  file : String
  detections : List Detection
  maxDetectionConf : Rat
deriving DecidableEq, Repr

/-- The MegaDetector output JSON document. -/
structure MDResults where
  images : List ImageResult
deriving DecidableEq, Repr

/-- Temp artifacts and child processes of one inference job. -/
structure TempFS where
  fileListOnDisk : Bool
  outputOnDisk : Bool
  spawnCount : Nat
deriving DecidableEq, Repr

/-- Outcome of the MegaDetector child process: zero exit with a parseable
output artifact, non-zero exit with the captured streams, or any other
exception while running or reading the output. -/
inductive ProcOutcome where
  | success (results : MDResults)
  | exitNonZero (code : Int) (stdout stderr : String)
  | exn (msg : String)
deriving DecidableEq, Repr

/-- The `run_detector_batch` command line built by `_run_megadetector_cli`,
joined with spaces as in the raised message. -/
def mdCmdStr (pythonPath modelFile fileListPath outputPath : String) (threshold : Rat) : String :=
  String.intercalate " "
    [pythonPath, "-m", "megadetector.detection.run_detector_batch", modelFile,
     fileListPath, outputPath, "--threshold", toString threshold, "--quiet"]

/-- The `RuntimeError` message raised on a non-zero MegaDetector exit. -/
def mdFailMsg (code : Int) (cmdStr stdout stderr : String) : String :=
  "MegaDetector CLI failed (exit code " ++ toString code ++ "):\nCommand: " ++
    cmdStr ++ "\nStdout: " ++ stdout ++ "\nStderr: " ++ stderr

/-- `MegaDetectorRunner._run_megadetector_cli`: create the temp output file,
spawn the child process, and on every path of the `try` / `finally` remove
the temp output file; a non-zero exit raises the `RuntimeError` built by
`mdFailMsg`. -/
def runMegadetectorCli (fs : TempFS) (outcome : ProcOutcome) (cmdStr : String) :
    Except String MDResults × TempFS :=
  let fs1 : TempFS := { fs with outputOnDisk := true }
  let fs2 : TempFS := { fs1 with spawnCount := fs1.spawnCount + 1 }
  match outcome with
  | .success r => (.ok r, { fs2 with outputOnDisk := false })
  | .exitNonZero code stdout stderr =>
    (.error (mdFailMsg code cmdStr stdout stderr), { fs2 with outputOnDisk := false })
  | .exn msg => (.error msg, { fs2 with outputOnDisk := false })

/-- `MegaDetectorRunner.run_detection` from the temp-artifact lifecycle on:
an empty image list returns `{"images": []}` immediately; otherwise write
the temp file list, run the CLI, and on every path of the `try` / `finally`
remove the temp file list. -/
def runDetection (fs : TempFS) (imagePaths : List String) (outcome : ProcOutcome)
    (cmdStr : String) : Except String MDResults × TempFS :=
  if imagePaths.isEmpty then (.ok { images := [] }, fs)
  else
    let fs1 : TempFS := { fs with fileListOnDisk := true }
    let r := runMegadetectorCli fs1 outcome cmdStr
    (r.1, { r.2 with fileListOnDisk := false })

/-! ## Helper lemmas -/

theorem alookup_nil {α : Type} (k : String) : alookup ([] : List (String × α)) k = none := rfl

theorem alookup_cons {α : Type} (p : String × α) (rest : List (String × α)) (k : String) :
    alookup (p :: rest) k = if p.1 = k then some p.2 else alookup rest k := by
  by_cases h : p.1 = k <;> simp [alookup, List.find?_cons, h]

theorem aset_cons {α : Type} (p : String × α) (rest : List (String × α)) (k : String) (v : α) :
    aset (p :: rest) k v = if p.1 = k then (k, v) :: rest else p :: aset rest k v := by
  by_cases h : p.1 = k <;> simp [aset, h]

theorem adel_cons {α : Type} (p : String × α) (rest : List (String × α)) (k : String) :
    adel (p :: rest) k = if p.1 = k then adel rest k else p :: adel rest k := by
  by_cases h : p.1 = k <;> simp [adel, List.filter_cons, h]

theorem alookup_adel_self {α : Type} (m : List (String × α)) (k : String) :
    alookup (adel m k) k = none := by
  induction m with
  | nil => rfl
  | cons p rest ih =>
    rw [adel_cons]
    by_cases h : p.1 = k
    · simpa [h] using ih
    · simpa [alookup_cons, h] using ih

theorem alookup_aset_self {α : Type} (m : List (String × α)) (k : String) (v : α) :
    alookup (aset m k v) k = some v := by
  induction m with
  | nil => simp [aset, alookup_cons]
  | cons p rest ih =>
    rw [aset_cons]
    by_cases h : p.1 = k <;> simp [alookup_cons, h, ih]

theorem alookup_aset_ne {α : Type} (m : List (String × α)) (k q : String) (v : α)
    (h : q ≠ k) : alookup (aset m k v) q = alookup m q := by
  induction m with
  | nil => simp [aset, alookup_cons, alookup_nil, Ne.symm h]
  | cons p rest ih =>
    rw [aset_cons]
    by_cases hp : p.1 = k
    · simp [alookup_cons, hp, Ne.symm h]
    · simp [alookup_cons, hp, ih]

theorem alookup_adel_ne {α : Type} (m : List (String × α)) (k q : String)
    (h : q ≠ k) : alookup (adel m k) q = alookup m q := by
  induction m with
  | nil => rfl
  | cons p rest ih =>
    rw [adel_cons]
    by_cases hp : p.1 = k
    · simp [alookup_cons, hp, Ne.symm h, ih]
    · simp [alookup_cons, hp, ih]

theorem safeRmEntry_eq_true (w : Bool) : safeRmEntry w = true := by
  cases w <;> rfl

theorem safeRmtree_eq_nil (entries : List Bool) : safeRmtree entries = [] := by
  simp [safeRmtree, safeRmEntry_eq_true]

theorem rmtreeDir_eq_none (entries : List Bool) : rmtreeDir entries = none := by
  simp [rmtreeDir, safeRmtree_eq_nil]

theorem wsSendProgress_of_none (broken : Conn → Bool) (m : WSManager)
    (jobId message : String) (progress : Rat) (data : List (String × String))
    (h : alookup m.conns jobId = none) :
    wsSendProgress broken m jobId message progress data = ([], m) := by
  simp [wsSendProgress, h]

theorem wsSendComplete_of_none (broken : Conn → Bool) (m : WSManager) (jobId : String)
    (success : Bool) (message : String) (data : List (String × String))
    (h : alookup m.conns jobId = none) :
    wsSendComplete broken m jobId success message data = ([], m) := by
  simp [wsSendComplete, h]

theorem wsSendError_of_none (broken : Conn → Bool) (m : WSManager) (jobId err : String)
    (h : alookup m.conns jobId = none) :
    wsSendError broken m jobId err = ([], m) := by
  simp [wsSendError, h]

theorem wsSendError_state_eq (broken : Conn → Bool) (m : WSManager) (jobId err : String) :
    (wsSendError broken m jobId err).2 = m := by
  cases h : alookup m.conns jobId <;> simp [wsSendError, h]

theorem foldl_erase_filter (l : List Conn) (p : Conn → Bool) (hnd : l.Nodup) :
    (l.filter p).foldl (fun acc c => if c ∈ acc then acc.erase c else acc) l
      = l.filter (fun c => !p c) := by
  have hstep : (fun (acc : List Conn) (c : Conn) => if c ∈ acc then acc.erase c else acc)
      = fun acc c => acc.erase c := by
    funext acc c
    by_cases h : c ∈ acc
    · simp [h]
    · simp [h, List.erase_of_not_mem h]
  rw [hstep, ← List.diff_eq_foldl, hnd.diff_eq_filter]
  refine List.filter_congr ?_
  intro c hc
  by_cases hp : p c = true <;> simp [List.mem_filter, hc, hp]

/-! ## Claim theorems -/

/-- Claim C8: for every manifest, calling `run_detection` with an empty
input-file list returns an empty result mapping immediately, spawns no
child process, and does not raise an error. -/
theorem run_detection_empty_returns_empty (fs : TempFS) (outcome : ProcOutcome)
    (cmdStr : String) :
    runDetection fs [] outcome cmdStr = (.ok { images := [] }, fs) ∧
    (runDetection fs [] outcome cmdStr).2.spawnCount = fs.spawnCount := by
  exact ⟨rfl, rfl⟩

/-- Claim C4: a non-zero exit of the inference child process makes
`run_detection` raise an execution error whose message contains the command
line, the captured stdout and the captured stderr; and on every exit path
(success, detected failure, or unexpected exception) both the temp file
list and the temp output file end up removed from disk. -/
theorem run_detection_error_carries_streams_and_cleans_up (fs : TempFS)
    (imagePaths : List String) (outcome : ProcOutcome) (cmdStr : String)
    (code : Int) (stdout stderr : String)
    (hfl : fs.fileListOnDisk = false) (hout : fs.outputOnDisk = false) :
    ((runDetection fs imagePaths outcome cmdStr).2.fileListOnDisk = false ∧
     (runDetection fs imagePaths outcome cmdStr).2.outputOnDisk = false) ∧
    (imagePaths ≠ [] → outcome = .exitNonZero code stdout stderr →
      ∃ msg, (runDetection fs imagePaths outcome cmdStr).1 = .error msg ∧
        (∃ a b, msg = a ++ cmdStr ++ b) ∧
        (∃ a b, msg = a ++ stdout ++ b) ∧
        (∃ a b, msg = a ++ stderr ++ b)) := by
  constructor
  · cases imagePaths with
    | nil => simp [runDetection, hfl, hout]
    | cons x xs => cases outcome <;> simp [runDetection, runMegadetectorCli]
  · intro hne ho
    cases imagePaths with
    | nil => exact absurd rfl hne
    | cons x xs =>
      subst ho
      refine ⟨mdFailMsg code cmdStr stdout stderr, ?_, ?_, ?_, ?_⟩
      · simp [runDetection, runMegadetectorCli]
      · exact ⟨"MegaDetector CLI failed (exit code " ++ toString code ++ "):\nCommand: ",
               "\nStdout: " ++ stdout ++ "\nStderr: " ++ stderr,
               by simp [mdFailMsg, String.append_assoc]⟩
      · exact ⟨"MegaDetector CLI failed (exit code " ++ toString code ++ "):\nCommand: " ++
                 cmdStr ++ "\nStdout: ",
               "\nStderr: " ++ stderr,
               by simp [mdFailMsg, String.append_assoc]⟩
      · exact ⟨"MegaDetector CLI failed (exit code " ++ toString code ++ "):\nCommand: " ++
                 cmdStr ++ "\nStdout: " ++ stdout ++ "\nStderr: ", "",
               by simp [mdFailMsg, String.append_assoc]⟩

/-- Witness for C4 at a concrete job: one input image, exit code 1. -/
theorem run_detection_error_witness :
    (((runDetection ⟨false, false, 0⟩ ["a.jpg"] (.exitNonZero 1 "so" "se") "cmd").2.fileListOnDisk
        = false ∧
      (runDetection ⟨false, false, 0⟩ ["a.jpg"] (.exitNonZero 1 "so" "se") "cmd").2.outputOnDisk
        = false) ∧
     ∃ msg, (runDetection ⟨false, false, 0⟩ ["a.jpg"] (.exitNonZero 1 "so" "se") "cmd").1
          = .error msg ∧
        (∃ a b, msg = a ++ "cmd" ++ b) ∧
        (∃ a b, msg = a ++ "so" ++ b) ∧
        (∃ a b, msg = a ++ "se" ++ b)) := by
  have h := run_detection_error_carries_streams_and_cleans_up ⟨false, false, 0⟩ ["a.jpg"]
    (.exitNonZero 1 "so" "se") "cmd" 1 "so" "se" rfl rfl
  exact ⟨h.1, h.2 (by simp) rfl⟩

/-- Claim C10: with a channel present for the task id, `disconnect` with an
unregistered connection raises (`list.remove` on an absent element); with no
channel at all it returns silently without modifying any state. -/
theorem disconnect_unregistered_vs_absent_channel (m : WSManager) (c : Conn)
    (jobId : String) :
    (∀ l, alookup m.conns jobId = some l → c ∉ l →
      wsDisconnect m c jobId = .error valueErrorMsg) ∧
    (alookup m.conns jobId = none → wsDisconnect m c jobId = .ok m) := by
  constructor
  · intro l hl hc
    simp [wsDisconnect, hl, hc]
  · intro h
    simp [wsDisconnect, h]

/-- Witness for C10: job `t` has subscriber 1 only, so disconnecting 0
raises; job `u` has no channel, so disconnecting 0 is a silent no-op. -/
theorem disconnect_unregistered_witness :
    wsDisconnect ⟨[("t", [1])]⟩ 0 "t" = .error valueErrorMsg ∧
    wsDisconnect ⟨[("t", [1])]⟩ 0 "u" = .ok ⟨[("t", [1])]⟩ :=
  ⟨(disconnect_unregistered_vs_absent_channel ⟨[("t", [1])]⟩ 0 "t").1 [1] (by decide)
      (by decide),
   (disconnect_unregistered_vs_absent_channel ⟨[("t", [1])]⟩ 0 "u").2 (by decide)⟩

/-- Counterexample to claim C1: after `send_error` — a terminal event per
the claim — on a task with one healthy subscriber, the subscriber count is
still 1 (not 0) and a subsequent progress event is still delivered. -/
theorem publish_error_keeps_channel_cex :
    wsConnectionCount (wsSendError (fun _ => false) ⟨[("t", [0])]⟩ "t" "boom").2 "t" ≠ 0 ∧
    (wsSendProgress (fun _ => false)
        (wsSendError (fun _ => false) ⟨[("t", [0])]⟩ "t" "boom").2
        "t" "m" 0 []).1.length = 1 := by
  decide

/-- Claim C1 as amended: `send_complete` is terminal — immediately after it
the task id's subscriber count is 0 and no further progress, completion or
error event for that id is deliverable (until a new connection subscribes);
`send_error`, by contrast, leaves the channel and its subscribers in place. -/
theorem publish_complete_terminal (broken broken2 : Conn → Bool) (m : WSManager)
    (jobId message msg2 err : String) (success success2 : Bool) (progress : Rat)
    (data data2 : List (String × String)) :
    wsConnectionCount (wsSendComplete broken m jobId success message data).2 jobId = 0 ∧
    (wsSendProgress broken2 (wsSendComplete broken m jobId success message data).2
        jobId msg2 progress data2).1 = [] ∧
    (wsSendProgress broken2 (wsSendComplete broken m jobId success message data).2
        jobId msg2 progress data2).2 = (wsSendComplete broken m jobId success message data).2 ∧
    (wsSendComplete broken2 (wsSendComplete broken m jobId success message data).2
        jobId success2 msg2 data2).1 = [] ∧
    (wsSendError broken2 (wsSendComplete broken m jobId success message data).2
        jobId err).1 = [] ∧
    (wsSendError broken m jobId err).2 = m := by
  have h2 : alookup (wsSendComplete broken m jobId success message data).2.conns jobId
      = none := by
    cases h : alookup m.conns jobId with
    | none => simp [wsSendComplete, h]
    | some l => simp [wsSendComplete, h, alookup_adel_self]
  refine ⟨?_, ?_, ?_, ?_, ?_, ?_⟩
  · simp [wsConnectionCount, h2]
  · rw [wsSendProgress_of_none _ _ _ _ _ _ h2]
  · rw [wsSendProgress_of_none _ _ _ _ _ _ h2]
  · rw [wsSendComplete_of_none _ _ _ _ _ _ h2]
  · rw [wsSendError_of_none _ _ _ _ h2]
  · exact wsSendError_state_eq broken m jobId err

/-- Counterexample to claim C9: task `t` has subscribers 0 and 1 and
delivery to 0 fails; after `send_error` the subscriber list is unchanged
(`[0, 1]`, count 2, not 1) even though the event was still delivered to 1
only — so the failed subscriber is not removed for error events. -/
theorem error_delivery_failure_removes_nobody_cex :
    (wsSendError (fun c => c == 0) ⟨[("t", [0, 1])]⟩ "t" "boom").2 = ⟨[("t", [0, 1])]⟩ ∧
    wsConnectionCount (wsSendError (fun c => c == 0) ⟨[("t", [0, 1])]⟩ "t" "boom").2 "t" ≠ 1 ∧
    ((wsSendError (fun c => c == 0) ⟨[("t", [0, 1])]⟩ "t" "boom").1.map Prod.fst) = [1] := by
  refine ⟨by decide, by decide, by decide⟩

/-- Claim C9 as amended: for every published event the delivery failure of
one subscriber never aborts delivery to the remaining subscribers — the
event reaches exactly the non-failing subscribers, in order.  Removal,
however, differs per event type: `send_progress` removes exactly the failed
subscribers from the task's list, `send_complete` removes every subscriber
(terminal), and `send_error` removes none. -/
theorem delivery_failure_isolation (broken : Conn → Bool) (m : WSManager)
    (jobId message err : String) (success : Bool) (progress : Rat)
    (data : List (String × String)) (l : List Conn)
    (hl : alookup m.conns jobId = some l) (hnd : l.Nodup) :
    ((wsSendProgress broken m jobId message progress data).1.map Prod.fst
        = l.filter (fun c => !broken c) ∧
     alookup (wsSendProgress broken m jobId message progress data).2.conns jobId
        = some (l.filter (fun c => !broken c))) ∧
    ((wsSendComplete broken m jobId success message data).1.map Prod.fst
        = l.filter (fun c => !broken c) ∧
     alookup (wsSendComplete broken m jobId success message data).2.conns jobId = none) ∧
    ((wsSendError broken m jobId err).1.map Prod.fst = l.filter (fun c => !broken c) ∧
     (wsSendError broken m jobId err).2 = m) := by
  refine ⟨⟨?_, ?_⟩, ⟨?_, ?_⟩, ⟨?_, ?_⟩⟩
  · simp [wsSendProgress, hl, Function.comp_def]
  · simp only [wsSendProgress, hl]
    by_cases hd : (l.filter (fun c => broken c)).isEmpty
    · have hnil : l.filter (fun c => broken c) = [] := by
        simpa [List.isEmpty_iff] using hd
      have hself : l.filter (fun c => !broken c) = l := by
        rw [List.filter_eq_self]
        intro a ha
        have := (List.filter_eq_nil_iff.mp hnil) a ha
        simpa using this
      simp [hd, hself, hl]
    · simp [hd, alookup_aset_self, foldl_erase_filter l (fun c => broken c) hnd]
  · simp [wsSendComplete, hl, Function.comp_def]
  · simp [wsSendComplete, hl, alookup_adel_self]
  · simp [wsSendError, hl, Function.comp_def]
  · simp [wsSendError, hl]

/-- Witness for C9 as amended: subscribers 0 and 1 on task `t`, delivery to
0 failing. -/
theorem delivery_failure_isolation_witness :
    ((wsSendProgress (fun c => c == 0) ⟨[("t", [0, 1])]⟩ "t" "m" 0 []).1.map Prod.fst
        = [1] ∧
     alookup (wsSendProgress (fun c => c == 0) ⟨[("t", [0, 1])]⟩ "t" "m" 0 []).2.conns "t"
        = some [1]) ∧
    ((wsSendComplete (fun c => c == 0) ⟨[("t", [0, 1])]⟩ "t" true "m" []).1.map Prod.fst
        = [1] ∧
     alookup (wsSendComplete (fun c => c == 0) ⟨[("t", [0, 1])]⟩ "t" true "m" []).2.conns "t"
        = none) ∧
    ((wsSendError (fun c => c == 0) ⟨[("t", [0, 1])]⟩ "t" "e").1.map Prod.fst = [1] ∧
     (wsSendError (fun c => c == 0) ⟨[("t", [0, 1])]⟩ "t" "e").2 = ⟨[("t", [0, 1])]⟩) := by
  have h := delivery_failure_isolation (fun c => c == 0) ⟨[("t", [0, 1])]⟩ "t" "m" "e"
    true 0 [] [0, 1] (by decide) (by decide)
  simpa using h

/-- Claim C7: every failing build (non-zero exit of the build tool — whose
error carries the last captured output line — or any other exception)
removes the partially-built environment directory, whatever the write
permissions of its entries, before the error propagates. -/
theorem create_env_failure_cleans_up (env yamlPath : String) (s : EnvFS)
    (b : BuildOutcome) (hfail : ∀ py, b ≠ .exitZero py) :
    (createEnv env yamlPath s b).fs.envDir = none ∧
    (createEnv env yamlPath s b).fs.pythonExists = false ∧
    (createEnv env yamlPath s b).builds = 1 ∧
    ∃ e, (createEnv env yamlPath s b).res = .error e ∧
      ∀ lastLine partialDir, b = .exitNonZero lastLine partialDir →
        ∃ pre, e = pre ++ lastLine := by
  cases b with
  | exitZero py => exact absurd rfl (hfail py)
  | exitNonZero lastLine partialDir =>
    refine ⟨?_, rfl, rfl, ?_⟩
    · cases partialDir with
      | none => rfl
      | some d => simp [createEnv, rmtreeDir_eq_none]
    · refine ⟨_, rfl, ?_⟩
      intro ll pd h
      cases h
      refine ⟨"Failed to create environment " ++ ("env-" ++ env) ++ ": " ++
        ("micromamba create failed:\nCommand: " ++ buildCmd env yamlPath ++
          "\nLast output: "), ?_⟩
      simp [createEnvWrapMsg, micromambaFailMsg, String.append_assoc]
  | exn msg partialDir =>
    refine ⟨?_, rfl, rfl, ⟨_, rfl, by intro ll pd h; cases h⟩⟩
    cases partialDir with
    | none => rfl
    | some d => simp [createEnv, rmtreeDir_eq_none]

/-- Witness for C7: a build of `megadetector` that exits non-zero after
creating a partial directory with one read-only entry. -/
theorem create_env_failure_witness :
    (createEnv "megadetector" (envYamlPath "megadetector") ⟨none, false, true⟩
        (.exitNonZero "boom" (some [false, true]))).fs.envDir = none ∧
    ∃ e, (createEnv "megadetector" (envYamlPath "megadetector") ⟨none, false, true⟩
        (.exitNonZero "boom" (some [false, true]))).res = .error e ∧
      ∃ pre, e = pre ++ "boom" := by
  have h := create_env_failure_cleans_up "megadetector" (envYamlPath "megadetector")
    ⟨none, false, true⟩ (.exitNonZero "boom" (some [false, true])) (by intro py hq; cases hq)
  obtain ⟨e, he, hline⟩ := h.2.2.2
  exact ⟨h.1, e, he, hline "boom" (some [false, true]) rfl⟩

/-- On the slow path (no validating directory, YAML present),
`get_or_create_env` removes any leftover directory and builds. -/
theorem getOrCreateEnv_slow (env : String) (s0 : EnvFS) (b : BuildOutcome)
    (h1 : ¬(s0.envDir.isSome && validateEnv s0) = true) (h2 : s0.yamlExists = true) :
    getOrCreateEnv env s0 b = createEnv env (envYamlPath env)
      (match s0.envDir with
       | some d => { s0 with envDir := rmtreeDir d, pythonExists := false }
       | none => s0) b := by
  cases hdir : s0.envDir with
  | none => simp [getOrCreateEnv, h1, h2, hdir]
  | some d =>
    have hv : validateEnv s0 = false := by
      cases hvv : validateEnv s0
      · rfl
      · exact absurd (by simp [hdir, hvv]) h1
    simp [getOrCreateEnv, h1, h2, hdir, hv]

/-- Claim C2: once `get_or_create_env` has returned an environment that
validates (interpreter binary present), a second call for the same manifest
returns the same environment path with zero invocations of the
environment-build tool and an unchanged filesystem; across the two
consecutive calls the build tool runs at most once. -/
theorem get_or_create_env_idempotent (env : String) (s0 : EnvFS) (b1 b2 : BuildOutcome)
    (p : String) (hok : (getOrCreateEnv env s0 b1).res = .ok p)
    (hval : validateEnv (getOrCreateEnv env s0 b1).fs = true) :
    getOrCreateEnv env (getOrCreateEnv env s0 b1).fs b2
        = { res := .ok p, fs := (getOrCreateEnv env s0 b1).fs, builds := 0 } ∧
    (getOrCreateEnv env s0 b1).builds + (0 : Nat) ≤ 1 := by
  by_cases h1 : (s0.envDir.isSome && validateEnv s0) = true
  · have ho1 : getOrCreateEnv env s0 b1 = { res := .ok (envPath env), fs := s0, builds := 0 } := by
      simp [getOrCreateEnv, h1]
    rw [ho1] at hok ⊢
    obtain rfl : envPath env = p := by simpa using hok
    constructor
    · simp [getOrCreateEnv, h1]
    · simp
  · by_cases h2 : s0.yamlExists = true
    · rw [getOrCreateEnv_slow env s0 b1 h1 h2] at hok hval ⊢
      cases b1 with
      | exitZero py =>
        have hfs : (createEnv env (envYamlPath env)
            (match s0.envDir with
             | some d => { s0 with envDir := rmtreeDir d, pythonExists := false }
             | none => s0) (.exitZero py)).fs
            = { envDir := some [], pythonExists := py, yamlExists := s0.yamlExists } := by
          cases s0.envDir <;> simp [createEnv]
        have hres : (createEnv env (envYamlPath env)
            (match s0.envDir with
             | some d => { s0 with envDir := rmtreeDir d, pythonExists := false }
             | none => s0) (.exitZero py)).res = .ok (envPath env) := by
          cases s0.envDir <;> simp [createEnv]
        have hbuilds : (createEnv env (envYamlPath env)
            (match s0.envDir with
             | some d => { s0 with envDir := rmtreeDir d, pythonExists := false }
             | none => s0) (.exitZero py)).builds = 1 := by
          cases s0.envDir <;> simp [createEnv]
        rw [hfs] at hval ⊢
        rw [hres] at hok
        obtain rfl : envPath env = p := by simpa using hok
        have hpy : py = true := by simpa [validateEnv] using hval
        subst hpy
        rw [hbuilds]
        constructor
        · simp [getOrCreateEnv, validateEnv]
        · simp
      | exitNonZero lastLine partialDir =>
        have : (createEnv env (envYamlPath env)
            (match s0.envDir with
             | some d => { s0 with envDir := rmtreeDir d, pythonExists := false }
             | none => s0) (.exitNonZero lastLine partialDir)).res
            = .error (createEnvWrapMsg ("env-" ++ env)
                (micromambaFailMsg (buildCmd env (envYamlPath env)) lastLine)) := by
          cases s0.envDir <;> simp [createEnv]
        rw [this] at hok
        cases hok
      | exn msg partialDir =>
        have : (createEnv env (envYamlPath env)
            (match s0.envDir with
             | some d => { s0 with envDir := rmtreeDir d, pythonExists := false }
             | none => s0) (.exn msg partialDir)).res
            = .error (createEnvWrapMsg ("env-" ++ env) msg) := by
          cases s0.envDir <;> simp [createEnv]
        rw [this] at hok
        cases hok
    · have : (getOrCreateEnv env s0 b1).res = .error (yamlNotFoundMsg env) := by
        simp [getOrCreateEnv, h1, h2]
      rw [this] at hok
      cases hok

/-- Witness for C2: no environment on disk, YAML present, first build
succeeds and installs the interpreter. -/
theorem get_or_create_env_idempotent_witness :
    getOrCreateEnv "megadetector"
        (getOrCreateEnv "megadetector" ⟨none, false, true⟩ (.exitZero true)).fs (.exitZero true)
      = { res := .ok (envPath "megadetector"),
          fs := (getOrCreateEnv "megadetector" ⟨none, false, true⟩ (.exitZero true)).fs,
          builds := 0 } ∧
    (getOrCreateEnv "megadetector" ⟨none, false, true⟩ (.exitZero true)).builds + (0 : Nat) ≤ 1 := by
  have h := get_or_create_env_idempotent "megadetector" ⟨none, false, true⟩
    (.exitZero true) (.exitZero true) (envPath "megadetector") (by rfl) (by rfl)
  exact h

/-- Counterexample to claim C3: in `boundaryScale` the mean of the last 3
samples is exactly 30% below the window mean, at least 3 samples are
recorded and the interval has elapsed, yet `adjust_workers` leaves the pool
at 4 instead of decreasing it by one — the code shrinks only strictly below
the 70% line. -/
theorem adjust_workers_boundary_cex :
    (boundaryScale.speedSamples.drop (boundaryScale.speedSamples.length - 3)).sum / 3
        = (boundaryScale.speedSamples.sum / (boundaryScale.speedSamples.length : Rat))
            * (7 / 10) ∧
    3 ≤ boundaryScale.speedSamples.length ∧
    ¬ (10 : Rat) - boundaryScale.lastAdjustmentTime < boundaryScale.adjustmentInterval ∧
    (adjustWorkers boundaryScale 10).maxWorkers = boundaryScale.maxWorkers ∧
    ¬ (adjustWorkers boundaryScale 10).maxWorkers = boundaryScale.maxWorkers - 1 := by
  refine ⟨by norm_num [boundaryScale, List.sum_cons], by norm_num [boundaryScale],
    by norm_num [boundaryScale], ?_, ?_⟩ <;>
    norm_num [adjustWorkers, boundaryScale, List.sum_cons]

/-- Claim C3 as amended: when the adjustment runs (interval elapsed, at
least 3 nonnegative samples) and the pool is within its configured bounds,
a recent mean strictly more than 30% below the window mean shrinks the pool
by exactly one clamped at `min_workers`; a recent mean strictly more than
20% above grows it by exactly one clamped at the worker limit; anywhere in
between (the 30%-below and 20%-above boundary points included) the pool is
unchanged; and the pool always stays within
`[min_workers, max_workers_limit]`. -/
theorem adjust_workers_strict_thresholds (s : DLScale) (now : Rat)
    (hiv : ¬ now - s.lastAdjustmentTime < s.adjustmentInterval)
    (hlen : 3 ≤ s.speedSamples.length)
    (hnn : ∀ x ∈ s.speedSamples, 0 ≤ x)
    (hlo : s.minWorkers ≤ s.maxWorkers) (hhi : s.maxWorkers ≤ s.maxWorkersLimit) :
    ((s.speedSamples.drop (s.speedSamples.length - 3)).sum / 3
        < (s.speedSamples.sum / (s.speedSamples.length : Rat)) * (7 / 10) →
      (adjustWorkers s now).maxWorkers = max s.minWorkers (s.maxWorkers - 1)) ∧
    ((s.speedSamples.sum / (s.speedSamples.length : Rat)) * (12 / 10)
        < (s.speedSamples.drop (s.speedSamples.length - 3)).sum / 3 →
      (adjustWorkers s now).maxWorkers = min s.maxWorkersLimit (s.maxWorkers + 1)) ∧
    ((s.speedSamples.sum / (s.speedSamples.length : Rat)) * (7 / 10)
        ≤ (s.speedSamples.drop (s.speedSamples.length - 3)).sum / 3 →
      (s.speedSamples.drop (s.speedSamples.length - 3)).sum / 3
        ≤ (s.speedSamples.sum / (s.speedSamples.length : Rat)) * (12 / 10) →
      (adjustWorkers s now).maxWorkers = s.maxWorkers) ∧
    (s.minWorkers ≤ (adjustWorkers s now).maxWorkers ∧
     (adjustWorkers s now).maxWorkers ≤ s.maxWorkersLimit) := by
  have hlen3 : ¬ s.speedSamples.length < 3 := Nat.not_lt.mpr hlen
  have havg : 0 ≤ s.speedSamples.sum / (s.speedSamples.length : Rat) :=
    div_nonneg (List.sum_nonneg hnn) (Nat.cast_nonneg _)
  have h712 : (s.speedSamples.sum / (s.speedSamples.length : Rat)) * (7 / 10)
      ≤ (s.speedSamples.sum / (s.speedSamples.length : Rat)) * (12 / 10) :=
    mul_le_mul_of_nonneg_left (by norm_num) havg
  have hA : adjustWorkers s now =
      (if (s.speedSamples.drop (s.speedSamples.length - 3)).sum / 3
            < (s.speedSamples.sum / (s.speedSamples.length : Rat)) * (7 / 10)
          ∧ s.minWorkers < s.maxWorkers then
        { s with maxWorkers := max s.minWorkers (s.maxWorkers - 1),
                 lastAdjustmentTime := now }
      else if (s.speedSamples.sum / (s.speedSamples.length : Rat)) * (12 / 10)
            < (s.speedSamples.drop (s.speedSamples.length - 3)).sum / 3
          ∧ s.maxWorkers < s.maxWorkersLimit then
        { s with maxWorkers := min s.maxWorkersLimit (s.maxWorkers + 1),
                 lastAdjustmentTime := now }
      else { s with lastAdjustmentTime := now }) := by
    rw [adjustWorkers, if_neg hiv, if_neg hlen3]
  rw [hA]
  by_cases hrec : (s.speedSamples.drop (s.speedSamples.length - 3)).sum / 3
      < (s.speedSamples.sum / (s.speedSamples.length : Rat)) * (7 / 10)
  · have hnot2 : ¬ ((s.speedSamples.sum / (s.speedSamples.length : Rat)) * (12 / 10)
        < (s.speedSamples.drop (s.speedSamples.length - 3)).sum / 3) :=
      not_lt.mpr (le_of_lt (lt_of_lt_of_le hrec h712))
    by_cases hmw : s.minWorkers < s.maxWorkers
    · simp only [if_pos (And.intro hrec hmw)]
      refine ⟨fun _ => trivial, fun h => absurd h hnot2, fun h _ => absurd hrec (not_lt.mpr h), ?_, ?_⟩
      · exact le_max_left _ _
      · exact max_le (hlo.trans hhi) ((Nat.sub_le _ _).trans hhi)
    · have hmin : s.minWorkers = s.maxWorkers := le_antisymm hlo (Nat.not_lt.mp hmw)
      simp only [if_neg (fun h : _ ∧ _ => hmw h.2),
        if_neg (fun h : _ ∧ _ => hnot2 h.1)]
      refine ⟨fun _ => ?_, fun h => absurd h hnot2, fun h _ => absurd hrec (not_lt.mpr h),
        hlo, hhi⟩
      rw [hmin]
      exact (Nat.max_eq_left (Nat.sub_le _ _)).symm
  · by_cases hrec2 : (s.speedSamples.sum / (s.speedSamples.length : Rat)) * (12 / 10)
        < (s.speedSamples.drop (s.speedSamples.length - 3)).sum / 3
    · by_cases hmw2 : s.maxWorkers < s.maxWorkersLimit
      · simp only [if_neg (fun h : _ ∧ _ => hrec h.1), if_pos (And.intro hrec2 hmw2)]
        refine ⟨fun h => absurd h hrec, fun _ => trivial,
          fun _ h => absurd hrec2 (not_lt.mpr h), ?_, Nat.min_le_left _ _⟩
        exact le_min (hlo.trans hhi) (hlo.trans (Nat.le_succ _))
      · have hmax : s.maxWorkers = s.maxWorkersLimit := le_antisymm hhi (Nat.not_lt.mp hmw2)
        simp only [if_neg (fun h : _ ∧ _ => hrec h.1), if_neg (fun h : _ ∧ _ => hmw2 h.2)]
        refine ⟨fun h => absurd h hrec, fun _ => ?_,
          fun _ h => absurd hrec2 (not_lt.mpr h), hlo, hhi⟩
        rw [hmax]
        exact (Nat.min_eq_left (Nat.le_succ _)).symm
    · simp only [if_neg (fun h : _ ∧ _ => hrec h.1), if_neg (fun h : _ ∧ _ => hrec2 h.1)]
      exact ⟨fun h => absurd h hrec, fun h => absurd h hrec2, fun _ _ => trivial, hlo, hhi⟩

/-- Witness for C3 as amended: `degradedScale` at time 10 — the shrink
branch fires and the pool goes from 4 to 3, within bounds. -/
theorem adjust_workers_strict_witness :
    (adjustWorkers degradedScale 10).maxWorkers
        = max degradedScale.minWorkers (degradedScale.maxWorkers - 1) ∧
    degradedScale.minWorkers ≤ (adjustWorkers degradedScale 10).maxWorkers ∧
    (adjustWorkers degradedScale 10).maxWorkers ≤ degradedScale.maxWorkersLimit := by
  have h := adjust_workers_strict_thresholds degradedScale 10
    (by norm_num [degradedScale]) (by norm_num [degradedScale])
    (by intro x hx; fin_cases hx <;> norm_num [degradedScale])
    (by norm_num [degradedScale]) (by norm_num [degradedScale])
  exact ⟨h.1 (by norm_num [degradedScale, List.sum_cons]), h.2.2.2⟩

theorem downloadFile_skip (st : DLRun) (f : FileInfo) (net : NetOutcome)
    (h : alookup st.disk f.path = some f.size) :
    downloadFile st f net
      = (true, { st with downloadedBytes := st.downloadedBytes + f.size }) := by
  simp [downloadFile, h]

theorem downloadFile_fresh_ok (st : DLRun) (f : FileInfo)
    (h : alookup st.disk f.path = none) :
    downloadFile st f .ok
      = (true,
         { st with
            disk := aset st.disk f.path f.size,
            downloadedBytes := st.downloadedBytes + f.size,
            netBytes := st.netBytes + f.size,
            netRequests := st.netRequests ++ [f.path],
            sampleCount := st.sampleCount + (if 0 < f.size then 1 else 0) }) := by
  simp [downloadFile, h]

theorem downloadFile_ok_disk (st : DLRun) (f : FileInfo) :
    alookup (downloadFile st f .ok).2.disk f.path = some f.size := by
  cases h : alookup st.disk f.path with
  | none => simp [downloadFile, h, alookup_aset_self]
  | some e =>
    by_cases he : e = f.size
    · subst he
      simp [downloadFile, h]
    · simp [downloadFile, h, he, alookup_aset_self]

theorem downloadFile_disk_frame (st : DLRun) (f : FileInfo) (net : NetOutcome)
    (q : String) (hq : q ≠ f.path) :
    alookup (downloadFile st f net).2.disk q = alookup st.disk q := by
  cases h : alookup st.disk f.path with
  | none =>
    cases net with
    | ok => simp [downloadFile, h, alookup_aset_ne _ _ _ _ hq]
    | fail partialBytes => simp [downloadFile, h, alookup_adel_ne _ _ _ hq]
  | some e =>
    by_cases he : e = f.size
    · subst he
      simp [downloadFile, h]
    · cases net with
      | ok => simp [downloadFile, h, he, alookup_aset_ne _ _ _ _ hq]
      | fail partialBytes => simp [downloadFile, h, he, alookup_adel_ne _ _ _ hq]

theorem repoStep_state (acc : Nat × Nat × DLRun) (fn : FileInfo × NetOutcome) :
    (repoStep acc fn).2.2 = (downloadFile acc.2.2 fn.1 fn.2).2 := by
  cases hr : (downloadFile acc.2.2 fn.1 fn.2).1 <;> simp [repoStep, hr]

theorem repoStep_counts (acc : Nat × Nat × DLRun) (fn : FileInfo × NetOutcome) :
    (repoStep acc fn).1 + (repoStep acc fn).2.1 = acc.1 + acc.2.1 + 1 := by
  cases hr : (downloadFile acc.2.2 fn.1 fn.2).1 <;> simp [repoStep, hr] <;> omega

theorem repoFold_counts (files : List (FileInfo × NetOutcome)) (acc : Nat × Nat × DLRun) :
    (files.foldl repoStep acc).1 + (files.foldl repoStep acc).2.1
      = acc.1 + acc.2.1 + files.length := by
  induction files generalizing acc with
  | nil => simp
  | cons g rest ih =>
    rw [List.foldl_cons, ih (repoStep acc g), repoStep_counts]
    simp
    omega

theorem repoFold_disk_frame (files : List (FileInfo × NetOutcome)) (acc : Nat × Nat × DLRun)
    (q : String) (hq : ∀ fn ∈ files, fn.1.path ≠ q) :
    alookup (files.foldl repoStep acc).2.2.disk q = alookup acc.2.2.disk q := by
  induction files generalizing acc with
  | nil => rfl
  | cons g rest ih =>
    rw [List.foldl_cons, ih (repoStep acc g) (fun fn h => hq fn (List.mem_cons_of_mem g h)),
      repoStep_state]
    exact downloadFile_disk_frame _ _ _ _ (Ne.symm (hq g (List.mem_cons_self g rest)))

theorem repoFold_ok_on_disk (files : List (FileInfo × NetOutcome)) (acc : Nat × Nat × DLRun)
    (hnd : (files.map fun fn => fn.1.path).Nodup) :
    ∀ fn ∈ files, fn.2 = NetOutcome.ok →
      alookup (files.foldl repoStep acc).2.2.disk fn.1.path = some fn.1.size := by
  induction files generalizing acc with
  | nil => exact fun fn h => absurd h (List.not_mem_nil fn)
  | cons g rest ih =>
    intro fn hmem hok
    rcases List.mem_cons.mp hmem with heq | hrest
    · subst heq
      rw [List.foldl_cons]
      rw [List.map_cons, List.nodup_cons] at hnd
      have hfr : ∀ gn ∈ rest, gn.1.path ≠ fn.1.path := by
        intro gn hgn hc
        exact hnd.1 (hc ▸ List.mem_map_of_mem (fun x => x.1.path) hgn)
      rw [repoFold_disk_frame rest (repoStep acc fn) fn.1.path hfr, repoStep_state, hok]
      exact downloadFile_ok_disk _ _
    · rw [List.map_cons, List.nodup_cons] at hnd
      exact ih (repoStep acc g) hnd.2 fn hrest hok

/-- Claim C5: `download_repo` returns success exactly when no per-file
failure occurred; one file's failure aborts neither the remaining downloads
(every file is still accounted, successes plus failures cover the whole
batch) nor the function itself, and every file whose transfer succeeds ends
on disk with its correct size. -/
theorem download_repo_partial_failure (files : List (FileInfo × NetOutcome))
    (disk0 : List (String × Nat))
    (hnd : (files.map fun fn => fn.1.path).Nodup) :
    ((downloadRepo files disk0).success = true ↔ (downloadRepo files disk0).failedCount = 0) ∧
    (downloadRepo files disk0).successCount + (downloadRepo files disk0).failedCount
        = files.length ∧
    (∀ fn ∈ files, fn.2 = NetOutcome.ok →
      alookup (downloadRepo files disk0).final.disk fn.1.path = some fn.1.size) := by
  refine ⟨?_, ?_, ?_⟩
  · simp [downloadRepo]
  · simpa [downloadRepo] using repoFold_counts files (0, 0,
      { disk := disk0, downloadedBytes := 0, sampleCount := 0,
        netBytes := 0, netRequests := [] })
  · intro fn hmem hok
    exact repoFold_ok_on_disk files _ hnd fn hmem hok

/-- Witness for C5: a 3-file batch whose middle file always fails; the
aggregate reports exactly one failure and the two good files are on disk
with their sizes. -/
theorem download_repo_partial_failure_witness :
    ((downloadRepo [(⟨"a", 10⟩, .ok), (⟨"b", 20⟩, .fail 5), (⟨"c", 30⟩, .ok)] []).success = true
      ↔ (downloadRepo [(⟨"a", 10⟩, .ok), (⟨"b", 20⟩, .fail 5), (⟨"c", 30⟩, .ok)] []).failedCount
          = 0) ∧
    (downloadRepo [(⟨"a", 10⟩, .ok), (⟨"b", 20⟩, .fail 5), (⟨"c", 30⟩, .ok)] []).successCount
        + (downloadRepo [(⟨"a", 10⟩, .ok), (⟨"b", 20⟩, .fail 5), (⟨"c", 30⟩, .ok)] []).failedCount
        = 3 ∧
    alookup (downloadRepo [(⟨"a", 10⟩, .ok), (⟨"b", 20⟩, .fail 5), (⟨"c", 30⟩, .ok)] []).final.disk
        "a" = some 10 ∧
    alookup (downloadRepo [(⟨"a", 10⟩, .ok), (⟨"b", 20⟩, .fail 5), (⟨"c", 30⟩, .ok)] []).final.disk
        "c" = some 30 := by
  have h := download_repo_partial_failure
    [(⟨"a", 10⟩, .ok), (⟨"b", 20⟩, .fail 5), (⟨"c", 30⟩, .ok)] [] (by decide)
  exact ⟨h.1, h.2.1, h.2.2 (⟨"a", 10⟩, .ok) (by decide) rfl,
    h.2.2 (⟨"c", 30⟩, .ok) (by decide) rfl⟩

theorem repoStep_of_success (acc : Nat × Nat × DLRun) (fn : FileInfo × NetOutcome)
    (h : (downloadFile acc.2.2 fn.1 fn.2).1 = true) :
    repoStep acc fn = (acc.1 + 1, acc.2.1, (downloadFile acc.2.2 fn.1 fn.2).2) := by
  simp [repoStep, h]

theorem repoFold_allok (files : List (FileInfo × NetOutcome)) (acc : Nat × Nat × DLRun)
    (hok : ∀ fn ∈ files, fn.2 = NetOutcome.ok)
    (hnd : (files.map fun fn => fn.1.path).Nodup)
    (hdisk : ∀ fn ∈ files, alookup acc.2.2.disk fn.1.path = none
        ∨ alookup acc.2.2.disk fn.1.path = some fn.1.size) :
    (files.foldl repoStep acc).2.2.downloadedBytes
        = acc.2.2.downloadedBytes + (files.map fun fn => fn.1.size).sum ∧
    (files.foldl repoStep acc).2.2.netBytes
        = acc.2.2.netBytes + ((files.filter fun fn =>
            (alookup acc.2.2.disk fn.1.path).isNone).map fun fn => fn.1.size).sum ∧
    (files.foldl repoStep acc).2.2.netRequests
        = acc.2.2.netRequests ++ ((files.filter fun fn =>
            (alookup acc.2.2.disk fn.1.path).isNone).map fun fn => fn.1.path) ∧
    (files.foldl repoStep acc).2.1 = acc.2.1 ∧
    (files.foldl repoStep acc).1 = acc.1 + files.length := by
  induction files generalizing acc with
  | nil => simp
  | cons g rest ih =>
    have hgok : g.2 = NetOutcome.ok := hok g (List.mem_cons_self g rest)
    rw [List.map_cons, List.nodup_cons] at hnd
    have hok2 : ∀ fn ∈ rest, fn.2 = NetOutcome.ok :=
      fun fn h => hok fn (List.mem_cons_of_mem g h)
    have hne : ∀ fn ∈ rest, fn.1.path ≠ g.1.path := by
      intro fn hfn hc
      exact hnd.1 (hc ▸ List.mem_map_of_mem (fun x => x.1.path) hfn)
    rw [List.foldl_cons]
    rcases hdisk g (List.mem_cons_self g rest) with hg | hg
    · -- g is absent on disk: a real network transfer happens
      have hdf : downloadFile acc.2.2 g.1 g.2
          = (true,
             { acc.2.2 with
                disk := aset acc.2.2.disk g.1.path g.1.size,
                downloadedBytes := acc.2.2.downloadedBytes + g.1.size,
                netBytes := acc.2.2.netBytes + g.1.size,
                netRequests := acc.2.2.netRequests ++ [g.1.path],
                sampleCount := acc.2.2.sampleCount
                  + (if 0 < g.1.size then 1 else 0) }) := by
        rw [hgok]
        exact downloadFile_fresh_ok acc.2.2 g.1 hg
      rw [repoStep_of_success acc g (by rw [hdf]), hdf]
      have hdisk2 : ∀ fn ∈ rest,
          alookup (aset acc.2.2.disk g.1.path g.1.size) fn.1.path = none
          ∨ alookup (aset acc.2.2.disk g.1.path g.1.size) fn.1.path = some fn.1.size := by
        intro fn hfn
        rw [alookup_aset_ne _ _ _ _ (hne fn hfn)]
        exact hdisk fn (List.mem_cons_of_mem g hfn)
      obtain ⟨ihd, ihn, ihr, ihf, ihs⟩ := ih (acc.1 + 1, acc.2.1,
          { acc.2.2 with
              disk := aset acc.2.2.disk g.1.path g.1.size,
              downloadedBytes := acc.2.2.downloadedBytes + g.1.size,
              netBytes := acc.2.2.netBytes + g.1.size,
              netRequests := acc.2.2.netRequests ++ [g.1.path],
              sampleCount := acc.2.2.sampleCount + (if 0 < g.1.size then 1 else 0) })
        hok2 hnd.2 hdisk2
      have hfilt : (rest.filter fun fn =>
            (alookup (aset acc.2.2.disk g.1.path g.1.size) fn.1.path).isNone)
          = rest.filter fun fn => (alookup acc.2.2.disk fn.1.path).isNone := by
        refine List.filter_congr ?_
        intro fn hfn
        rw [alookup_aset_ne _ _ _ _ (hne fn hfn)]
      rw [hfilt] at ihn ihr
      have hgnone : (alookup acc.2.2.disk g.1.path).isNone = true := by rw [hg]; rfl
      refine ⟨?_, ?_, ?_, ?_, ?_⟩
      · rw [ihd]; simp; omega
      · rw [ihn]; simp [List.filter_cons, hgnone]; omega
      · rw [ihr]; simp [List.filter_cons, hgnone]
      · exact ihf
      · rw [ihs]; simp; omega
    · -- g already on disk with the exact size: skipped, only credited
      have hdf : downloadFile acc.2.2 g.1 g.2
          = (true, { acc.2.2 with
              downloadedBytes := acc.2.2.downloadedBytes + g.1.size }) :=
        downloadFile_skip acc.2.2 g.1 g.2 hg
      rw [repoStep_of_success acc g (by rw [hdf]), hdf]
      obtain ⟨ihd, ihn, ihr, ihf, ihs⟩ := ih (acc.1 + 1, acc.2.1,
          { acc.2.2 with downloadedBytes := acc.2.2.downloadedBytes + g.1.size })
        hok2 hnd.2 (fun fn hfn => hdisk fn (List.mem_cons_of_mem g hfn))
      have hgsome : (alookup acc.2.2.disk g.1.path).isNone = false := by rw [hg]; rfl
      refine ⟨?_, ?_, ?_, ?_, ?_⟩
      · rw [ihd]; simp; omega
      · rw [ihn]; simp [List.filter_cons, hgsome]
      · rw [ihr]; simp [List.filter_cons, hgsome]
      · exact ihf
      · rw [ihs]; simp; omega

theorem filter_ne_path_sum (files : List (FileInfo × NetOutcome)) (f : FileInfo)
    (hnd : (files.map fun fn => fn.1.path).Nodup)
    (hmem : (f, NetOutcome.ok) ∈ files) :
    ((files.filter fun fn => fn.1.path ≠ f.path).map fun fn => fn.1.size).sum + f.size
      = (files.map fun fn => fn.1.size).sum := by
  induction files with
  | nil => cases hmem
  | cons g rest ih =>
    rw [List.map_cons, List.nodup_cons] at hnd
    rcases List.mem_cons.mp hmem with heq | hrest
    · subst heq
      have hrestall : (rest.filter fun fn => fn.1.path ≠ f.path) = rest := by
        rw [List.filter_eq_self]
        intro fn hfn
        have hne2 : fn.1.path ≠ f.path := by
          intro hc
          exact hnd.1 (hc ▸ List.mem_map_of_mem (fun x => x.1.path) hfn)
        simpa using hne2
      rw [List.filter_cons]
      have hpred : (decide ((f, NetOutcome.ok).1.path ≠ f.path)) = false := by simp
      rw [hpred, if_neg (by simp), hrestall, List.map_cons, List.sum_cons]
      exact Nat.add_comm _ _
    · have hgne : (decide (g.1.path ≠ f.path)) = true := by
        have : g.1.path ≠ f.path := by
          intro hc
          apply hnd.1
          rw [hc]
          exact List.mem_map_of_mem (fun x => x.1.path) hrest
        simpa using this
      simp only [List.filter_cons, hgne, if_true, List.map_cons, List.sum_cons]
      have := ih hnd.2 hrest
      omega

/-- Claim C6: in a repository download where one file already exists at the
destination with exactly the remote size, that file triggers no HTTP request
(its bytes are excluded from the newly transferred network bytes), it is
counted as successful, and — because `update_progress` still credits its
size to the aggregate `downloaded_bytes` counter — the reported progress
fraction still reaches 100%. -/
theorem download_repo_skip_exact_size (files : List (FileInfo × NetOutcome))
    (disk0 : List (String × Nat)) (f : FileInfo)
    (hmem : (f, NetOutcome.ok) ∈ files)
    (hok : ∀ fn ∈ files, fn.2 = NetOutcome.ok)
    (hnd : (files.map fun fn => fn.1.path).Nodup)
    (hself : alookup disk0 f.path = some f.size)
    (hothers : ∀ fn ∈ files, fn.1.path ≠ f.path → alookup disk0 fn.1.path = none) :
    f.path ∉ (downloadRepo files disk0).final.netRequests ∧
    (downloadRepo files disk0).success = true ∧
    (downloadRepo files disk0).successCount = files.length ∧
    (downloadRepo files disk0).final.netBytes + f.size = totalSize files ∧
    (downloadRepo files disk0).final.downloadedBytes = totalSize files ∧
    (totalSize files ≠ 0 →
      ((downloadRepo files disk0).final.downloadedBytes : Rat) / (totalSize files : Rat)
        = 1) := by
  have hdisk : ∀ fn ∈ files, alookup disk0 fn.1.path = none
      ∨ alookup disk0 fn.1.path = some fn.1.size := by
    intro fn hfn
    by_cases hp : fn.1.path = f.path
    · right
      have hfneq : fn = (f, NetOutcome.ok) := by
        refine List.inj_on_of_nodup_map hnd hfn hmem ?_
        simpa using hp
      rw [hp, hself, hfneq]
    · exact Or.inl (hothers fn hfn hp)
  obtain ⟨hd, hn, hr, hf, hs⟩ := repoFold_allok files
    (0, 0, { disk := disk0, downloadedBytes := 0, sampleCount := 0,
             netBytes := 0, netRequests := [] }) hok hnd hdisk
  have hfeq : (files.filter fun fn => (alookup disk0 fn.1.path).isNone)
      = files.filter fun fn => fn.1.path ≠ f.path := by
    refine List.filter_congr ?_
    intro fn hfn
    by_cases hp : fn.1.path = f.path
    · have hfneq : fn = (f, NetOutcome.ok) := by
        refine List.inj_on_of_nodup_map hnd hfn hmem ?_
        simpa using hp
      rw [hp, hself]
      simp [hp]
    · rw [hothers fn hfn hp]
      simp [hp]
  have hfin : (downloadRepo files disk0).final = (files.foldl repoStep
      (0, 0, { disk := disk0, downloadedBytes := 0, sampleCount := 0,
               netBytes := 0, netRequests := [] })).2.2 := rfl
  refine ⟨?_, ?_, ?_, ?_, ?_, ?_⟩
  · rw [hfin, hr, hfeq]
    intro hmem2
    simp only [List.nil_append, List.mem_map] at hmem2
    obtain ⟨fn, hfn, hpath⟩ := hmem2
    have := (List.mem_filter.mp hfn).2
    rw [hpath] at this
    simp at this
  · simp [downloadRepo] at hf ⊢
    omega
  · have : (downloadRepo files disk0).successCount = (files.foldl repoStep
        (0, 0, { disk := disk0, downloadedBytes := 0, sampleCount := 0,
                 netBytes := 0, netRequests := [] })).1 := rfl
    rw [this, hs]
    omega
  · rw [hfin, hn, hfeq]
    have := filter_ne_path_sum files f hnd hmem
    simpa [totalSize] using this
  · rw [hfin, hd]
    simp [totalSize]
  · intro hne
    rw [hfin, hd]
    have h0 : ((totalSize files : Nat) : Rat) ≠ 0 := by
      exact_mod_cast hne
    simp [totalSize] at h0 ⊢
    exact div_self h0

/-- Witness for C6: a 3-file repository where file `b` (20 bytes) already
exists locally with the exact remote size. -/
theorem download_repo_skip_exact_size_witness :
    (FileInfo.mk "b" 20).path ∉ (downloadRepo
        [(⟨"a", 10⟩, .ok), (⟨"b", 20⟩, .ok), (⟨"c", 30⟩, .ok)]
        [("b", 20)]).final.netRequests ∧
    (downloadRepo [(⟨"a", 10⟩, .ok), (⟨"b", 20⟩, .ok), (⟨"c", 30⟩, .ok)]
        [("b", 20)]).final.netBytes + 20
      = totalSize [(⟨"a", 10⟩, .ok), (⟨"b", 20⟩, .ok), (⟨"c", 30⟩, .ok)] ∧
    (downloadRepo [(⟨"a", 10⟩, .ok), (⟨"b", 20⟩, .ok), (⟨"c", 30⟩, .ok)]
        [("b", 20)]).final.downloadedBytes
      = totalSize [(⟨"a", 10⟩, .ok), (⟨"b", 20⟩, .ok), (⟨"c", 30⟩, .ok)] ∧
    ((downloadRepo [(⟨"a", 10⟩, .ok), (⟨"b", 20⟩, .ok), (⟨"c", 30⟩, .ok)]
        [("b", 20)]).final.downloadedBytes : Rat)
      / (totalSize [(⟨"a", 10⟩, .ok), (⟨"b", 20⟩, .ok), (⟨"c", 30⟩, .ok)] : Rat) = 1 := by
  have h := download_repo_skip_exact_size
    [(⟨"a", 10⟩, .ok), (⟨"b", 20⟩, .ok), (⟨"c", 30⟩, .ok)] [("b", 20)] ⟨"b", 20⟩
    (by decide) (by decide) (by decide) (by decide) (by decide)
  exact ⟨h.1, h.2.2.2.1, h.2.2.2.2.1, h.2.2.2.2.2 (by decide)⟩
